import Mathlib

/-!
Formal model of the `dcy` service-discovery package from svckit: address
sets, the resolution cache, the Consul watcher loop, subscriber
notification, service-name parsing and URL substitution, together with
theorems about their behaviour.

External collaborators (the Consul HTTP API, `net/url` parsing, the
process randomness source and wall-clock sleeps) are modelled as explicit
parameters: each query response, parsed URL or random draw is an input to
the function that consumes it. Everything else is translated directly
from `dcy.go`.
-/

namespace Dcy

/-- `Address` is a service address returned from Consul
(`dcy.go`: `type Address struct { Address string; Port int }`). -/
structure Address where
  address : String
  port : Int
  deriving DecidableEq, Repr

/-- `Address.String` in Go: renders the address as `host:port`
(`fmt.Sprintf("%s:%d", a.Address, a.Port)`). -/
def Address.toString (a : Address) : String :=
  a.address ++ ":" ++ ToString.toString a.port

/-- `Address.Equal`: structural equality on host and port. -/
def Address.Equal (a a2 : Address) : Bool :=
  a.address == a2.address && a.port == a2.port

/-- `Addresses` is an array of service addresses (`type Addresses []Address`). -/
abbrev Addresses := List Address

/-- `Addresses.Equal` from `dcy.go`: the lengths must match and every
element of the receiver must be found in the argument (the Go loop sets
`found` by scanning `a2` for each `d` in `a`). -/
def Addresses.Equal (a a2 : Addresses) : Bool :=
  if a.length != a2.length then false
  else a.all fun d => a2.any fun d2 => d.Equal d2

/-- `Addresses.Contains`: linear scan with `Address.Equal`. -/
def Addresses.Contains (a : Addresses) (a2 : Address) : Bool :=
  a.any fun a1 => a1.Equal a2

lemma Address.Equal_refl (a : Address) : a.Equal a = true := by
  simp [Address.Equal]

lemma Addresses.Equal_iff (a b : Addresses) :
    Addresses.Equal a b = true ↔
      (a.length = b.length ∧ ∀ d ∈ a, ∃ d2 ∈ b, d.Equal d2 = true) := by
  by_cases h : a.length = b.length
  · simp [Addresses.Equal, h, List.all_eq_true, List.any_eq_true]
  · simp [Addresses.Equal, h, bne_iff_ne]

/-- C3 counterexample: Go `Addresses.Equal` is not set equality.
`[x, x]` and `[x, y]` compare equal (same length, every element of the
first is found in the second) although `y` is not contained in `[x, x]`;
and a duplicated element changes the length, so `[x]` and `[x, x]`,
which contain exactly the same endpoints, compare unequal. -/
theorem c3_counterexample :
    (Addresses.Equal [⟨"a", 1⟩, ⟨"a", 1⟩] [⟨"a", 1⟩, ⟨"b", 2⟩] = true)
    ∧ (Addresses.Contains [⟨"a", 1⟩, ⟨"a", 1⟩] ⟨"b", 2⟩ = false)
    ∧ (Addresses.Equal [⟨"a", 1⟩] [⟨"a", 1⟩, ⟨"a", 1⟩] = false) := by
  decide

/-- C3 (amended): `Addresses.Equal a b` holds iff the lengths agree and
every element of `a` is found in `b` (a one-directional containment
check, not full set equality); consequently equality does hold for every
permutation of the same collection. -/
theorem c3_equal_characterization :
    (∀ a b : Addresses, Addresses.Equal a b = true ↔
       (a.length = b.length ∧ ∀ d ∈ a, ∃ d2 ∈ b, d.Equal d2 = true))
    ∧ (∀ a b : Addresses, a.Perm b → Addresses.Equal a b = true) := by
  refine ⟨Addresses.Equal_iff, fun a b hp => ?_⟩
  rw [Addresses.Equal_iff]
  exact ⟨hp.length_eq, fun d hd => ⟨d, hp.subset hd, Address.Equal_refl d⟩⟩

/-- C3 witness: the characterization applied to a concrete permutation. -/
theorem c3_witness :
    Addresses.Equal [⟨"a", 1⟩, ⟨"b", 2⟩] [⟨"b", 2⟩, ⟨"a", 1⟩] = true :=
  c3_equal_characterization.2 _ _ (by decide)

/-- The package-level mutable state guarded by the lock `l` in `dcy.go`:
the cache `map[string]Addresses` and the subscriber map
`map[string][]func(Addresses)`. Handlers are compared by pointer
identity in Go (`reflect.ValueOf(h).Pointer()`), so we model a handler
as an opaque identity token of type `Nat`. A Go map lookup of a missing
key yields `nil`, modelled as `none`. -/
structure DcyState where
  cache : String → Option Addresses
  subscribers : String → Option (List Nat)

/-- `cacheKey`: `name` alone when the datacenter is empty, else
`fmt.Sprintf("%s-%s", name, dc)`. -/
def cacheKey (name dc : String) : String :=
  if dc = "" then name else name ++ "-" ++ dc

/-- `notify` from `dcy.go`: when the subscriber map has an entry for
`name`, every registered handler is invoked with `srvs`, in registration
order. An invocation is modelled as the event `(handler, srvs)`. -/
def notify (subs : String → Option (List Nat)) (name : String)
    (srvs : Addresses) : List (Nat × Addresses) :=
  match subs name with
  | some s => s.map fun h => (h, srvs)
  | none => []

/-- `updateCache` from `dcy.go`: under the write lock, if an entry for
`cacheKey name dc` exists and is `Addresses.Equal` to `srvs`, return
without storing or notifying; otherwise store `srvs` under the key and
notify the subscribers registered under the bare `name`. Returns the new
state together with the notification events produced. -/
def updateCache (st : DcyState) (name dc : String) (srvs : Addresses) :
    DcyState × List (Nat × Addresses) :=
  let key := cacheKey name dc
  if (match st.cache key with
      | some srvs2 => srvs2.Equal srvs
      | none => false) then
    (st, [])
  else
    ({ st with cache := fun k => if k = key then some srvs else st.cache k },
     notify st.subscribers name srvs)

/-- `invalidateCache` from `dcy.go`: under the write lock, delete the
entry for `cacheKey name dc`. -/
def invalidateCache (st : DcyState) (name dc : String) : DcyState :=
  { st with cache := fun k => if k = cacheKey name dc then none else st.cache k }

/-- `Subscribe` from `dcy.go`: fetch the current list for `name`
(`nil`, i.e. `none`, becomes the empty list) and append the handler. -/
def Subscribe (st : DcyState) (name : String) (handler : Nat) : DcyState :=
  let a := (st.subscribers name).getD []
  { st with
    subscribers := fun k => if k = name then some (a ++ [handler]) else st.subscribers k }

/-- The removal loop inside Go `Unsubscribe`: scan for the first element
whose pointer identity equals `handler`, remove it and `break`. -/
def removeFirst : List Nat → Nat → List Nat
  | [], _ => []
  | h :: t, x => if h == x then t else h :: removeFirst t x

/-- `Unsubscribe` from `dcy.go`: when the map has no entry (`nil`) it
returns immediately; otherwise it removes the first identity-matching
handler (if any) and stores the list back. -/
def Unsubscribe (st : DcyState) (name : String) (handler : Nat) : DcyState :=
  match st.subscribers name with
  | none => st
  | some a =>
    { st with
      subscribers := fun k => if k = name then some (removeFirst a handler) else st.subscribers k }

lemma removeFirst_of_not_mem {l : List Nat} {x : Nat} (h : x ∉ l) :
    removeFirst l x = l := by
  induction l with
  | nil => rfl
  | cons a t ih =>
    simp only [List.mem_cons, not_or] at h
    simp [removeFirst, Ne.symm h.1, ih h.2]

lemma removeFirst_append {l1 l2 : List Nat} {x : Nat} (h : x ∉ l1) :
    removeFirst (l1 ++ x :: l2) x = l1 ++ l2 := by
  induction l1 with
  | nil => simp [removeFirst]
  | cons a t ih =>
    simp only [List.mem_cons, not_or] at h
    simp [removeFirst, Ne.symm h.1, ih h.2]

/-- C2: a cache update whose new set is `Addresses.Equal` to the stored
entry is a no-op (state unchanged, no events); otherwise the set is
stored under the datacenter-qualified key and the handlers registered
under the bare `name` are each notified exactly once with the new set;
and after a first, changing, update a second update with an equal set
produces no further events. -/
theorem c2_update_noop_or_notify (st : DcyState) (name dc : String)
    (S S2 : Addresses) :
    (∀ old, st.cache (cacheKey name dc) = some old → old.Equal S = true →
       updateCache st name dc S = (st, []))
    ∧ ((∀ old, st.cache (cacheKey name dc) = some old → old.Equal S = false) →
       (updateCache st name dc S).1.cache (cacheKey name dc) = some S
       ∧ (updateCache st name dc S).2
           = ((st.subscribers name).getD []).map (fun h => (h, S)))
    ∧ ((∀ old, st.cache (cacheKey name dc) = some old → old.Equal S = false) →
       S.Equal S2 = true →
       updateCache (updateCache st name dc S).1 name dc S2
         = ((updateCache st name dc S).1, [])) := by
  refine ⟨fun old hold heq => ?_, fun hne => ?_, fun hne heq => ?_⟩
  · simp [updateCache, hold, heq]
  · have hcond : (match st.cache (cacheKey name dc) with
        | some srvs2 => srvs2.Equal S
        | none => false) = false := by
      cases h : st.cache (cacheKey name dc) with
      | none => rfl
      | some old => simpa using hne old h
    constructor
    · simp [updateCache, hcond]
    · simp only [updateCache, hcond, Bool.false_eq_true, if_false]
      cases h : st.subscribers name <;> simp [notify, h]
  · have hcond : (match st.cache (cacheKey name dc) with
        | some srvs2 => srvs2.Equal S
        | none => false) = false := by
      cases h : st.cache (cacheKey name dc) with
      | none => rfl
      | some old => simpa using hne old h
    simp [updateCache, hcond, heq]

/-- C2 witness: with one handler registered under the bare name, an
update under datacenter key `svc-dc1` notifies once; repeating it with a
permuted (set-equal) list notifies nobody. -/
theorem c2_witness :
    (updateCache
        { cache := fun _ => none,
          subscribers := fun k => if k = "svc" then some [7] else none }
        "svc" "dc1" [⟨"a", 1⟩, ⟨"b", 2⟩]).2 = [(7, [⟨"a", 1⟩, ⟨"b", 2⟩])]
    ∧ (updateCache
        (updateCache
          { cache := fun _ => none,
            subscribers := fun k => if k = "svc" then some [7] else none }
          "svc" "dc1" [⟨"a", 1⟩, ⟨"b", 2⟩]).1
        "svc" "dc1" [⟨"b", 2⟩, ⟨"a", 1⟩]).2 = [] := by
  have h := c2_update_noop_or_notify
    { cache := fun _ => none,
      subscribers := fun k => if k = "svc" then some [7] else none }
    "svc" "dc1" [⟨"a", 1⟩, ⟨"b", 2⟩] [⟨"b", 2⟩, ⟨"a", 1⟩]
  refine ⟨?_, ?_⟩
  · have := h.2.1 (fun old hold => by simp at hold)
    rw [this.2]; rfl
  · have := h.2.2 (fun old hold => by simp at hold) (by decide)
    rw [this]

/-- C8: `Subscribe` appends to the end of the name's list without
deduplication (a twice-registered handler is invoked twice, in order, by
`notify`); `notify` invokes exactly the currently registered handlers in
registration order; `Unsubscribe` removes only the first
identity-matching handler, and is a no-op when no handler matches or
when the name has no entry at all. -/
theorem c8_subscribe_notify_unsubscribe (st : DcyState) (name : String)
    (h : Nat) (S : Addresses) (l1 l2 : List Nat) :
    ((Subscribe st name h).subscribers name
       = some ((st.subscribers name).getD [] ++ [h]))
    ∧ (notify (Subscribe (Subscribe st name h) name h).subscribers name S
       = ((st.subscribers name).getD [] ++ [h, h]).map (fun g => (g, S)))
    ∧ (∀ l, st.subscribers name = some l →
        notify st.subscribers name S = l.map (fun g => (g, S)))
    ∧ (st.subscribers name = some (l1 ++ h :: l2) → h ∉ l1 →
        (Unsubscribe st name h).subscribers name = some (l1 ++ l2))
    ∧ (∀ l, st.subscribers name = some l → h ∉ l →
        (Unsubscribe st name h).subscribers name = some l)
    ∧ (st.subscribers name = none → Unsubscribe st name h = st) := by
  refine ⟨?_, ?_, ?_, ?_, ?_, ?_⟩
  · simp [Subscribe]
  · simp [Subscribe, notify]
  · intro l hl
    simp [notify, hl]
  · intro hl hmem
    simp [Unsubscribe, hl, removeFirst_append hmem]
  · intro l hl hmem
    simp [Unsubscribe, hl, removeFirst_of_not_mem hmem]
  · intro hl
    simp [Unsubscribe, hl]

/-- C8 witness: registering handler 5 twice after handler 4 notifies
`[4, 5, 5]` in order, and unsubscribing 5 removes only the first copy. -/
theorem c8_witness :
    (notify
      (Subscribe
        (Subscribe { cache := fun _ => none,
                     subscribers := fun k => if k = "svc" then some [4] else none }
          "svc" 5)
        "svc" 5).subscribers
      "svc" [⟨"a", 1⟩] = [(5, [⟨"a", 1⟩]), (5, [⟨"a", 1⟩])].cons (4, [⟨"a", 1⟩]))
    ∧ ((Unsubscribe
         { cache := fun _ => none,
           subscribers := fun k => if k = "svc" then some [4, 5, 5] else none }
         "svc" 5).subscribers "svc" = some [4, 5]) := by
  constructor
  · have := (c8_subscribe_notify_unsubscribe
      { cache := fun _ => none,
        subscribers := fun k => if k = "svc" then some [4] else none }
      "svc" 5 [⟨"a", 1⟩] [] []).2.1
    rw [this]; rfl
  · have := (c8_subscribe_notify_unsubscribe
      { cache := fun _ => none,
        subscribers := fun k => if k = "svc" then some [4, 5, 5] else none }
      "svc" 5 [⟨"a", 1⟩] [4] [5]).2.2.2.1
    rw [this (by rfl) (by decide)]
    rfl

/-! ### Registry query adapter and watcher -/

/-- Constants from `dcy.go`. -/
def queryTimeoutSeconds : Nat := 30

def queryRetries : Nat := 10

def waitTimeMinutes : Nat := 10

def localConsulAdr : String := "127.0.0.1:8500"

/-- The consul address; defaults to the local agent (the `init` function
may override it from the environment, which we fix to the default). -/
def consulAddr : String := localConsulAdr

/-- The fields of `api.ServiceEntry` that `dcy.go` reads: the
service-level address and port (`se.Service.Address`, `se.Service.Port`),
the owning node's address (`se.Node.Address`) and the statuses of the
entry's health checks (`se.Checks[i].Status`). -/
structure ServiceEntry where
  serviceAddress : String
  servicePort : Int
  nodeAddress : String
  checks : List String
  deriving DecidableEq, Repr

/-- One response of the external `consul.Health().Service` call: either a
transport error or a raw entry list together with `qm.LastIndex`. -/
inductive ConsulResult where
  | err (e : String)
  | ok (ses : List ServiceEntry) (lastIndex : Nat)
  deriving DecidableEq, Repr

/-- The filtering loop of `service` in `dcy.go`: an entry is dropped
(`continue loop`) as soon as one of its checks has a status that is
neither `"passing"` nor `"warning"`; the survivors are appended in
order. -/
def serviceFilter (ses : List ServiceEntry) : List ServiceEntry :=
  ses.filter fun se => se.checks.all fun c => !(c != "passing" && c != "warning")

/-- `service` in `dcy.go`: forwards the error of the external call, and
otherwise returns the health-filtered entries with the query meta index. -/
def service : ConsulResult → Except String (List ServiceEntry × Nat)
  | .err e => .error e
  | .ok ses lastIndex => .ok (serviceFilter ses, lastIndex)

/-- `parseConsulServiceEntries` from `dcy.go`: each entry becomes one
`Address`, preferring the service-level address and falling back to the
node address when it is empty, with the service-level port. -/
def parseConsulServiceEntries (ses : List ServiceEntry) : Addresses :=
  ses.map fun se =>
    { address := if se.serviceAddress == "" then se.nodeAddress else se.serviceAddress,
      port := se.servicePort }

/-- Spec-side healthiness predicate, written from the claim: an entry is
kept exactly when all of its health checks have status passing or
warning. Used to compare the code's filter against the claim. -/
def healthySpec (se : ServiceEntry) : Bool :=
  se.checks.all fun c => c == "passing" || c == "warning"

/-- Spec-side endpoint mapping, written from the claim: the entry's
service-level address when non-empty, otherwise the node's address, with
the service-level port. -/
def endpointSpec (se : ServiceEntry) : Address :=
  { address := if se.serviceAddress = "" then se.nodeAddress else se.serviceAddress,
    port := se.servicePort }

/-- C6: the query adapter keeps exactly the entries all of whose checks
are passing or warning, and maps each survivor to the endpoint preferring
the service-level address over the node address. -/
theorem c6_filter_and_parse (ses : List ServiceEntry) :
    serviceFilter ses = ses.filter healthySpec
    ∧ parseConsulServiceEntries (serviceFilter ses)
        = (ses.filter healthySpec).map endpointSpec := by
  have hpred : ∀ se : ServiceEntry,
      (se.checks.all fun c => !(c != "passing" && c != "warning")) = healthySpec se := by
    intro se
    unfold healthySpec
    congr 1
    funext c
    cases hp : c == "passing" <;> cases hw : c == "warning" <;> simp [hp, hw, bne]
  have hfilter : serviceFilter ses = ses.filter healthySpec := by
    unfold serviceFilter
    exact List.filter_congr fun se _ => hpred se
  refine ⟨hfilter, ?_⟩
  rw [hfilter]
  unfold parseConsulServiceEntries endpointSpec
  apply List.map_congr_left
  intro se _
  cases h : se.serviceAddress == "" <;> simp_all [beq_iff_eq]

/-- Outcome of running the watcher loop on a finite prefix of query
responses: either it gave up (terminated after `invalidateCache`), or it
is still running with the current wait index and failure counter. -/
inductive MonitorOutcome where
  | gaveUp (st : DcyState)
  | running (st : DcyState) (wi : Nat) (tries : Nat)

/-- The `monitor` loop of `dcy.go`, run over an explicit list of
responses of the external blocking query (the `time.Sleep` between
failed attempts has no observable effect in the model and is elided).
On a failure the counter is incremented; when it reaches `queryRetries`
the cache entry is invalidated and the loop returns, otherwise the loop
retries with the same wait index. On a success the counter is reset, the
wait index advances to the response's `LastIndex` and the cache is
updated with the parsed entries. Returns the outcome and all
notification events produced. -/
def monitor (name dc : String) :
    Nat → Nat → DcyState → List ConsulResult → MonitorOutcome × List (Nat × Addresses)
  | wi, tries, st, [] => (.running st wi tries, [])
  | wi, tries, st, r :: rs =>
    match service r with
    | .error _ =>
      if tries + 1 == queryRetries then (.gaveUp (invalidateCache st name dc), [])
      else monitor name dc wi (tries + 1) st rs
    | .ok (ses, lastIndex) =>
      let p := updateCache st name dc (parseConsulServiceEntries ses)
      let rest := monitor name dc lastIndex 0 p.1 rs
      (rest.1, p.2 ++ rest.2)

/-- C1: one step of the watcher. A failure below the ceiling increments
the counter and retries with the wait index unchanged and the state
untouched; the failure that reaches the ceiling `queryRetries = 10`
removes the key's cache entry and terminates; a success resets the
counter to 0, advances the wait index to the returned `LastIndex` and
updates the cache with the response; and the retry ceiling and sleep
constants are 10 and 30 seconds. -/
theorem c1_monitor_step (name dc : String) (wi lastIndex tries : Nat)
    (st : DcyState) (rs : List ConsulResult) (e : String)
    (ses : List ServiceEntry) :
    (tries + 1 < queryRetries →
       monitor name dc wi tries st (.err e :: rs)
         = monitor name dc wi (tries + 1) st rs)
    ∧ (tries + 1 = queryRetries →
       monitor name dc wi tries st (.err e :: rs)
         = (.gaveUp (invalidateCache st name dc), [])
       ∧ (invalidateCache st name dc).cache (cacheKey name dc) = none)
    ∧ (monitor name dc wi tries st (.ok ses lastIndex :: rs)
        = ((monitor name dc lastIndex 0
              (updateCache st name dc
                (parseConsulServiceEntries (serviceFilter ses))).1 rs).1,
           (updateCache st name dc
              (parseConsulServiceEntries (serviceFilter ses))).2
             ++ (monitor name dc lastIndex 0
                  (updateCache st name dc
                    (parseConsulServiceEntries (serviceFilter ses))).1 rs).2))
    ∧ queryRetries = 10 ∧ queryTimeoutSeconds = 30 := by
  refine ⟨fun hlt => ?_, fun heq => ⟨?_, ?_⟩, ?_, rfl, rfl⟩
  · have : (tries + 1 == queryRetries) = false := by
      simp [Nat.ne_of_lt hlt]
    simp [monitor, service, this]
  · have : (tries + 1 == queryRetries) = true := by simp [heq]
    simp [monitor, service, this]
  · simp [invalidateCache]
  · simp [monitor, service]

/-- C1 witness: starting from a failure count of 8, one more failure
retries with the same index, and from 9 the tenth failure gives up and
removes the entry; a success resets the counter and advances the index. -/
theorem c1_witness :
    (monitor "svc" "" 5 8 { cache := fun _ => none, subscribers := fun _ => none }
        [.err "boom"]
      = monitor "svc" "" 5 9 { cache := fun _ => none, subscribers := fun _ => none } [])
    ∧ (monitor "svc" ""
        5 9 { cache := fun k => if k = "svc" then some [⟨"a", 1⟩] else none,
              subscribers := fun _ => none } [.err "boom"]
        = (.gaveUp (invalidateCache
            { cache := fun k => if k = "svc" then some [⟨"a", 1⟩] else none,
              subscribers := fun _ => none } "svc" ""), [])
       ∧ (invalidateCache
            { cache := fun k => if k = "svc" then some [⟨"a", 1⟩] else none,
              subscribers := fun _ => none } "svc" "").cache (cacheKey "svc" "") = none)
    ∧ (monitor "svc" "" 5 3 { cache := fun _ => none, subscribers := fun _ => none }
        [.ok [⟨"10.0.0.1", 80, "node", ["passing"]⟩] 6]
      = ((monitor "svc" "" 6 0
            (updateCache { cache := fun _ => none, subscribers := fun _ => none }
              "svc" ""
              (parseConsulServiceEntries
                (serviceFilter [⟨"10.0.0.1", 80, "node", ["passing"]⟩]))).1 []).1,
         (updateCache { cache := fun _ => none, subscribers := fun _ => none }
            "svc" ""
            (parseConsulServiceEntries
              (serviceFilter [⟨"10.0.0.1", 80, "node", ["passing"]⟩]))).2)) := by
  refine ⟨?_, ?_, ?_⟩
  · exact (c1_monitor_step "svc" "" 5 0 8
      { cache := fun _ => none, subscribers := fun _ => none } [] "boom" []).1
      (by decide)
  · exact (c1_monitor_step "svc" "" 5 0 9
      { cache := fun k => if k = "svc" then some [⟨"a", 1⟩] else none,
        subscribers := fun _ => none } [] "boom" []).2.1 (by decide)
  · have h := (c1_monitor_step "svc" "" 5 6 3
      { cache := fun _ => none, subscribers := fun _ => none } [] "boom"
      [⟨"10.0.0.1", 80, "node", ["passing"]⟩]).2.2.1
    rw [h]
    simp [monitor]

/-! ### Resolver: `query` and `srv` -/

/-- The observable effect of `query`/`srv` in `dcy.go`: the returned
value or error, the state after the call, the notification events fired,
and whether a `monitor` goroutine was spawned (with its start index). -/
structure QueryEffect where
  result : Except String Addresses
  st : DcyState
  events : List (Nat × Addresses)
  monitorStarted : Option Nat

/-- `query` from `dcy.go`, with the external Consul response supplied as
`oracle`: on a transport error the error is returned and nothing else
happens; when the filtered, parsed entry list is empty the
`service ... not found` error is returned, the cache is left untouched
and no monitor is spawned; otherwise the cache is updated, a monitor
goroutine is spawned with start index `qm.LastIndex` and the addresses
are returned. -/
def query (st : DcyState) (oracle : ConsulResult) (name dc : String) :
    QueryEffect :=
  match service oracle with
  | .error e => { result := .error e, st := st, events := [], monitorStarted := none }
  | .ok (ses, lastIndex) =>
    let srvs := parseConsulServiceEntries ses
    if srvs.length = 0 then
      { result := .error ("service " ++ name ++ " not found in consul " ++ consulAddr),
        st := st, events := [], monitorStarted := none }
    else
      let p := updateCache st name dc srvs
      { result := .ok srvs, st := p.1, events := p.2, monitorStarted := some lastIndex }

/-- `srv` from `dcy.go`: serve from the cache when the entry exists and
is non-empty, otherwise fall through to `query`. The boolean records
whether the registry was queried. -/
def srv (st : DcyState) (oracle : ConsulResult) (name dc : String) :
    QueryEffect × Bool :=
  match st.cache (cacheKey name dc) with
  | some srvs =>
    if srvs.length > 0 then
      ({ result := .ok srvs, st := st, events := [], monitorStarted := none }, false)
    else (query st oracle name dc, true)
  | none => (query st oracle name dc, true)

/-- C4: an empty-but-present cache entry is treated exactly like a cache
miss — `srv` performs the fresh registry lookup `query` instead of
returning the empty set — and a cached entry is returned without
querying exactly when it is present and non-empty (a missing entry also
queries). -/
theorem c4_empty_entry_is_miss (st : DcyState) (oracle : ConsulResult)
    (name dc : String) :
    (st.cache (cacheKey name dc) = some [] →
       srv st oracle name dc = (query st oracle name dc, true))
    ∧ (∀ s, st.cache (cacheKey name dc) = some s → s ≠ [] →
       srv st oracle name dc
         = ({ result := .ok s, st := st, events := [], monitorStarted := none }, false))
    ∧ (st.cache (cacheKey name dc) = none →
       srv st oracle name dc = (query st oracle name dc, true)) := by
  refine ⟨fun hc => ?_, fun s hc hs => ?_, fun hc => ?_⟩
  · simp [srv, hc]
  · have : s.length > 0 := List.length_pos.mpr hs
    simp [srv, hc, this]
  · simp [srv, hc]

/-- C4 witness: with `some []` cached for `foo`, `srv` queries the
registry; with a non-empty entry it serves the cache without querying. -/
theorem c4_witness :
    (srv { cache := fun k => if k = "foo" then some [] else none,
           subscribers := fun _ => none }
        (.ok [⟨"10.0.0.1", 80, "n", []⟩] 7) "foo" ""
      = (query { cache := fun k => if k = "foo" then some [] else none,
                 subscribers := fun _ => none }
          (.ok [⟨"10.0.0.1", 80, "n", []⟩] 7) "foo" "", true))
    ∧ (srv { cache := fun k => if k = "foo" then some [⟨"a", 1⟩] else none,
             subscribers := fun _ => none }
        (.ok [] 7) "foo" ""
      = ({ result := .ok [⟨"a", 1⟩],
           st := { cache := fun k => if k = "foo" then some [⟨"a", 1⟩] else none,
                   subscribers := fun _ => none },
           events := [], monitorStarted := none }, false)) := by
  constructor
  · exact (c4_empty_entry_is_miss
      { cache := fun k => if k = "foo" then some [] else none,
        subscribers := fun _ => none }
      (.ok [⟨"10.0.0.1", 80, "n", []⟩] 7) "foo" "").1 (by simp [cacheKey])
  · exact (c4_empty_entry_is_miss
      { cache := fun k => if k = "foo" then some [⟨"a", 1⟩] else none,
        subscribers := fun _ => none }
      (.ok [] 7) "foo" "").2.1 [⟨"a", 1⟩] (by simp [cacheKey]) (by decide)

/-- C5: an immediate lookup whose filtered result is empty fails with
the `service ... not found` error, leaves the cache unchanged and spawns
no monitor; by contrast a successful blocking lookup inside the watcher
that observes an empty set stores the empty set in the cache as a valid
state (the watcher keeps running). -/
theorem c5_not_found_vs_empty_watch (st : DcyState) (oracle : ConsulResult)
    (name dc : String) (ses : List ServiceEntry) (lastIndex wi tries : Nat) :
    (∀ ses2 li2, oracle = .ok ses2 li2 →
       parseConsulServiceEntries (serviceFilter ses2) = [] →
       query st oracle name dc
         = { result := .error ("service " ++ name ++ " not found in consul " ++ consulAddr),
             st := st, events := [], monitorStarted := none })
    ∧ ((updateCache st name dc []).1.cache (cacheKey name dc) = some [])
    ∧ (parseConsulServiceEntries (serviceFilter ses) = [] →
       (monitor name dc wi tries st [.ok ses lastIndex]).1
         = .running (updateCache st name dc []).1 lastIndex 0) := by
  refine ⟨fun ses2 li2 ho hp => ?_, ?_, fun hp => ?_⟩
  · subst ho
    simp [query, service, hp]
  · cases hc : st.cache (cacheKey name dc) with
    | none => simp [updateCache, hc]
    | some old =>
      by_cases he : old.Equal [] = true
      · have hold : old = [] := by
          have hlen := ((Addresses.Equal_iff old []).mp he).1
          exact List.length_eq_zero.mp (by simpa using hlen)
        subst hold
        simp [updateCache, hc, Addresses.Equal]
      · have he2 : old.Equal [] = false := by
          cases hx : old.Equal [] with
          | false => rfl
          | true => exact absurd hx he
        simp [updateCache, hc, he2]
  · simp [monitor, service, hp]

/-- C5 witness: an immediate lookup whose only entry fails its health
check errors with `not found` and starts no monitor, while the watcher
stores the empty set on the same response. -/
theorem c5_witness :
    (query { cache := fun _ => none, subscribers := fun _ => none }
        (.ok [⟨"10.0.0.1", 80, "n", ["critical"]⟩] 7) "foo" ""
      = { result := .error ("service foo not found in consul " ++ consulAddr),
          st := { cache := fun _ => none, subscribers := fun _ => none },
          events := [], monitorStarted := none })
    ∧ ((updateCache { cache := fun _ => none, subscribers := fun _ => none }
          "foo" "" []).1.cache (cacheKey "foo" "") = some []) := by
  have h := c5_not_found_vs_empty_watch
    { cache := fun _ => none, subscribers := fun _ => none }
    (.ok [⟨"10.0.0.1", 80, "n", ["critical"]⟩] 7) "foo" ""
    [⟨"10.0.0.1", 80, "n", ["critical"]⟩] 7 0 0
  exact ⟨h.1 _ _ rfl (by decide), h.2.1⟩

/-! ### Service-name parsing

`serviceName` in `dcy.go` matches the input against the regular
expression `^(\S*)\.service\.*(\S*)*\.<domain>$` (the configured domain
is interpolated into the pattern; we model it for domains that contain
no regexp metacharacters, such as `sd` or `consul`) and returns
`(fqdn, "")` when there is no match, else the two submatches. Go's
`regexp` package produces the match a backtracking engine would find
first (leftmost-first, Perl-style), so the pattern is compiled here into
an explicit backtracking matcher:

* `(\S*)` is greedy: the longest non-whitespace prefix that is followed
  by the literal `.service` and a matching remainder wins; candidate
  lengths are tried from the maximal non-space run downwards.
* `\.*` greedily consumes a run of literal dots.
* `(\S*)*` then has to consume everything up to the mandatory final
  `"." ++ domain`. A single greedy iteration consumes the whole middle
  chunk (iterations cannot cross whitespace, and an iteration matching
  the empty string terminates the star without being recorded), so the
  captured submatch is the whole chunk — empty when there is nothing to
  consume. The greedy dot-run takes `min (dotRun rest) t` dots, where
  `t` marks where the suffix `"." ++ domain` begins: larger runs would
  overlap the suffix and fail, smaller runs only prepend dots (which are
  non-space) to the chunk of a longer run, so they succeed only if the
  maximal feasible run does.
-/

/-- RE2's `\s` character class: `[\t\n\f\r ]`. -/
def isSpaceRE2 (c : Char) : Bool :=
  c == ' ' || c == '\t' || c == '\n' || c == '\x0c' || c == '\r'

/-- Length of the maximal non-whitespace prefix (the most `\S*` can eat). -/
def nonSpaceRun : List Char → Nat
  | [] => 0
  | c :: cs => if isSpaceRE2 c then 0 else nonSpaceRun cs + 1

/-- Length of the maximal run of literal dots (the most `\.*` can eat). -/
def dotRun : List Char → Nat
  | [] => 0
  | c :: cs => if c = '.' then dotRun cs + 1 else 0

/-- Does the literal `pat` occur in `cs` at position `k`? -/
def litAt (cs : List Char) (k : Nat) (pat : List Char) : Bool :=
  (cs.drop k).take pat.length == pat

/-- The literal `.service` of the pattern. -/
def dotService : List Char := ['.', 's', 'e', 'r', 'v', 'i', 'c', 'e']

/-- Match `\.*(\S*)*\.<dom>$` against `rest`, returning the `(\S*)*`
capture on success. -/
def tryTail (rest dom : List Char) : Option (List Char) :=
  if rest.length < dom.length + 1 then none
  else
    let t := rest.length - (dom.length + 1)
    if rest.drop t == '.' :: dom then
      let j := min (dotRun rest) t
      let chunk := (rest.drop j).take (t - j)
      if chunk.all fun c => !isSpaceRE2 c then some chunk else none
    else none

/-- Attempt a full match with group 1 of length exactly `k`. -/
def tryAt (cs dom : List Char) (k : Nat) : Option (List Char × List Char) :=
  if litAt cs k dotService then
    (tryTail (cs.drop (k + 8)) dom).map fun chunk => (cs.take k, chunk)
  else none

/-- Backtracking search for group 1: candidate lengths from `k` down to
`0`, first success wins. -/
def searchName (cs dom : List Char) : Nat → Option (List Char × List Char)
  | 0 => tryAt cs dom 0
  | k + 1 =>
    match tryAt cs dom (k + 1) with
    | some r => some r
    | none => searchName cs dom k

/-- `serviceName` from `dcy.go`: the two submatches of the pattern on a
match, and the input verbatim with an empty datacenter otherwise. -/
def serviceName (fqdn domain : String) : String × String :=
  match searchName fqdn.data domain.data (nonSpaceRun fqdn.data) with
  | some (g1, g2) => (String.mk g1, String.mk g2)
  | none => (fqdn, "")

lemma nonSpaceRun_eq_length {cs : List Char}
    (h : ∀ c ∈ cs, isSpaceRE2 c = false) : nonSpaceRun cs = cs.length := by
  induction cs with
  | nil => rfl
  | cons a t ih =>
    have ha := h a (List.mem_cons_self a t)
    simp [nonSpaceRun, ha, ih fun c hc => h c (List.mem_cons_of_mem a hc)]

lemma dotService_nonspace : ∀ c ∈ dotService, isSpaceRE2 c = false := by decide

lemma searchName_succ_none {cs dom : List Char} {k : Nat}
    (h : tryAt cs dom (k + 1) = none) :
    searchName cs dom (k + 1) = searchName cs dom k := by
  simp [searchName, h]

lemma searchName_of_tryAt {cs dom : List Char} {k : Nat}
    {r : List Char × List Char} (h : tryAt cs dom k = some r) :
    searchName cs dom k = some r := by
  cases k <;> simp [searchName, h]

lemma searchName_descend (cs dom : List Char) (k0 : Nat) :
    ∀ K, k0 ≤ K → (∀ k, k0 < k → k ≤ K → tryAt cs dom k = none) →
      searchName cs dom K = searchName cs dom k0 := by
  intro K
  induction K with
  | zero =>
    intro h _
    rw [Nat.le_zero.mp h]
  | succ K ih =>
    intro hle hnone
    rcases Nat.eq_or_lt_of_le hle with heq | hlt
    · rw [heq]
    · rw [searchName_succ_none (hnone (K + 1) hlt (Nat.le_refl _))]
      exact ih (Nat.lt_succ_iff.mp hlt) fun k hk1 hk2 => hnone k hk1 (Nat.le_succ_of_le hk2)

lemma searchName_none (cs dom : List Char) :
    ∀ K, (∀ k, k ≤ K → tryAt cs dom k = none) → searchName cs dom K = none := by
  intro K
  induction K with
  | zero =>
    intro h
    simpa [searchName] using h 0 (Nat.le_refl 0)
  | succ K ih =>
    intro h
    rw [searchName_succ_none (h (K + 1) (Nat.le_refl _))]
    exact ih fun k hk => h k (Nat.le_succ_of_le hk)

lemma litAt_of_ge {cs pat : List Char} {k : Nat} (hk : cs.length ≤ k)
    (hpat : pat ≠ []) : litAt cs k pat = false := by
  unfold litAt
  rw [List.drop_eq_nil_of_le hk]
  cases pat with
  | nil => exact absurd rfl hpat
  | cons a t => rfl

lemma litAt_dot_mem {cs : List Char} {k : Nat}
    (h : litAt cs k dotService = true) : '.' ∈ cs := by
  unfold litAt at h
  have heq : (cs.drop k).take dotService.length = dotService := by
    simpa [beq_iff_eq] using h
  have : '.' ∈ (cs.drop k).take dotService.length := by
    rw [heq]; decide
  exact List.drop_subset k cs (List.take_subset _ _ this)

lemma tryTail_with_dc (dc dom : List Char)
    (hdc : ∀ c ∈ dc, isSpaceRE2 c = false) (hne : dc ≠ [])
    (hhd : dc.head? ≠ some '.') :
    tryTail ('.' :: (dc ++ '.' :: dom)) dom = some dc := by
  obtain ⟨c, dc', rfl⟩ : ∃ c dc', dc = c :: dc' := by
    cases dc with
    | nil => exact absurd rfl hne
    | cons c dc' => exact ⟨c, dc', rfl⟩
  have hcdot : c ≠ '.' := by
    intro h
    exact hhd (by simp [h])
  have hlen : ('.' :: ((c :: dc') ++ '.' :: dom)).length
      = (c :: dc').length + dom.length + 2 := by
    simp [List.length_append]
    omega
  have hnotlt : ¬ ('.' :: ((c :: dc') ++ '.' :: dom)).length < dom.length + 1 := by
    rw [hlen]; omega
  have ht : ('.' :: ((c :: dc') ++ '.' :: dom)).length - (dom.length + 1)
      = (c :: dc').length + 1 := by
    rw [hlen]; omega
  unfold tryTail
  rw [if_neg hnotlt]
  simp only [ht]
  have hassoc : ('.' :: ((c :: dc') ++ '.' :: dom))
      = ('.' :: (c :: dc')) ++ ('.' :: dom) := by simp
  have hdrop : ('.' :: ((c :: dc') ++ '.' :: dom)).drop ((c :: dc').length + 1)
      = '.' :: dom := by
    rw [hassoc]
    have : (c :: dc').length + 1 = ('.' :: (c :: dc')).length := by simp
    rw [this, List.drop_left]
  rw [hdrop, if_pos (by simp)]
  have hdot : dotRun ('.' :: ((c :: dc') ++ '.' :: dom)) = 1 := by
    simp [dotRun, hcdot]
  rw [hdot]
  have hmin : min 1 ((c :: dc').length + 1) = 1 := by
    apply Nat.min_eq_left
    omega
  rw [hmin]
  have hdrop1 : ('.' :: ((c :: dc') ++ '.' :: dom)).drop 1
      = (c :: dc') ++ '.' :: dom := rfl
  rw [hdrop1]
  have htake : ((c :: dc') ++ '.' :: dom).take ((c :: dc').length + 1 - 1)
      = c :: dc' := by
    simp only [Nat.add_sub_cancel]
    exact List.take_left _ _
  rw [htake]
  rw [if_pos]
  simp only [List.all_eq_true]
  intro x hx
  simp [hdc x hx]

lemma tryTail_no_dc (dom : List Char) : tryTail ('.' :: dom) dom = some [] := by
  have hlen : ('.' :: dom).length = dom.length + 1 := by simp
  have hnotlt : ¬ ('.' :: dom).length < dom.length + 1 := by rw [hlen]; omega
  have ht : ('.' :: dom).length - (dom.length + 1) = 0 := by rw [hlen]; omega
  unfold tryTail
  rw [if_neg hnotlt]
  simp only [ht, List.drop_zero, Nat.zero_sub, List.take_zero, Nat.min_zero]
  rw [if_pos (by simp)]
  rfl

lemma serviceName_of_unique (name tail dom g2 : List Char)
    (hns : ∀ c ∈ name ++ (dotService ++ tail), isSpaceRE2 c = false)
    (htail : tryTail tail dom = some g2)
    (huniq : ∀ k, k < (name ++ (dotService ++ tail)).length →
       litAt (name ++ (dotService ++ tail)) k dotService = true → k = name.length) :
    serviceName (String.mk (name ++ (dotService ++ tail))) (String.mk dom)
      = (String.mk name, String.mk g2) := by
  set cs := name ++ (dotService ++ tail) with hcs
  have hrun : nonSpaceRun cs = cs.length := nonSpaceRun_eq_length hns
  have hlit : litAt cs name.length dotService = true := by
    unfold litAt
    rw [hcs, List.drop_left, List.take_left]
    simp
  have hdrop8 : cs.drop (name.length + 8) = tail := by
    have h1 : cs = (name ++ dotService) ++ tail := by rw [hcs, List.append_assoc]
    have h2 : (name ++ dotService).length = name.length + 8 := by
      simp [dotService]
    rw [h1, ← h2, List.drop_left]
  have htry : tryAt cs dom name.length = some (name, g2) := by
    unfold tryAt
    rw [if_pos hlit, hdrop8, htail]
    have : cs.take name.length = name := by rw [hcs]; exact List.take_left _ _
    simp [this]
  have hlenle : name.length ≤ cs.length := by
    rw [hcs]
    simp [List.length_append]
  have hnone : ∀ k, name.length < k → k ≤ cs.length → tryAt cs dom k = none := by
    intro k h1 h2
    rcases Nat.eq_or_lt_of_le h2 with heq | hlt
    · unfold tryAt
      rw [litAt_of_ge (le_of_eq heq.symm) (by decide)]
      rfl
    · by_cases hl : litAt cs k dotService = true
      · exact absurd (huniq k hlt hl) (Nat.ne_of_gt h1)
      · unfold tryAt
        rw [Bool.not_eq_true] at hl
        rw [hl]
        rfl
  have hsearch : searchName cs dom (nonSpaceRun cs) = some (name, g2) := by
    rw [hrun, searchName_descend cs dom name.length cs.length hlenle hnone,
      searchName_of_tryAt htry]
  show serviceName (String.mk cs) (String.mk dom) = (String.mk name, String.mk g2)
  unfold serviceName
  have hdata : (String.mk cs).data = cs := rfl
  rw [hdata, hsearch]

/-- C7 counterexample: with domain `sd`, the input `foo.servicex.sd` is
not of the fully qualified form `<name>.service[.<datacenter>].<domain>`
(no dot separates `service` from `x`), yet `serviceName` does not return
it verbatim: the pattern's `\.*` accepts zero dots, so the input parses
as name `foo` with datacenter `x`. -/
theorem c7_counterexample :
    serviceName "foo.servicex.sd" "sd" = ("foo", "x")
    ∧ serviceName "foo.servicex.sd" "sd" ≠ ("foo.servicex.sd", "") := by
  have h1 : serviceName "foo.servicex.sd" "sd" = ("foo", "x") := rfl
  refine ⟨h1, ?_⟩
  rw [h1]
  intro h
  have h2 := congrArg Prod.fst h
  simp only [Prod.fst] at h2
  exact absurd h2 (by decide)

/-- C7 (amended): `serviceName` implements the pattern
`^(\S*)\.service\.*(\S*)*\.<domain>$` — the name is the longest
non-space prefix followed by the literal `.service`, then any run of
dots (possibly none) is skipped, and the datacenter is the remaining
non-space chunk before the final `.<domain>` (empty when nothing
remains). In particular the canonical forms
`<name>.service.<dc>.<domain>` and `<name>.service.<domain>` are
stripped to `(name, dc)` and `(name, "")` when `.service` occurs only at
the end of `name`, and an input containing no dot at all is returned
verbatim with an empty datacenter; but the matched language is larger
than the fully qualified form, as inputs like `foo.servicex.sd` also
parse. -/
theorem c7_service_name_parsing :
    (∀ name dc dom : List Char,
       (∀ c ∈ name, isSpaceRE2 c = false) →
       (∀ c ∈ dc, isSpaceRE2 c = false) →
       (∀ c ∈ dom, isSpaceRE2 c = false) →
       dc ≠ [] →
       dc.head? ≠ some '.' →
       (∀ k, k < (name ++ (dotService ++ '.' :: (dc ++ '.' :: dom))).length →
          litAt (name ++ (dotService ++ '.' :: (dc ++ '.' :: dom))) k dotService = true →
          k = name.length) →
       serviceName (String.mk (name ++ (dotService ++ '.' :: (dc ++ '.' :: dom))))
           (String.mk dom)
         = (String.mk name, String.mk dc))
    ∧ (∀ name dom : List Char,
       (∀ c ∈ name, isSpaceRE2 c = false) →
       (∀ c ∈ dom, isSpaceRE2 c = false) →
       (∀ k, k < (name ++ (dotService ++ '.' :: dom)).length →
          litAt (name ++ (dotService ++ '.' :: dom)) k dotService = true →
          k = name.length) →
       serviceName (String.mk (name ++ (dotService ++ '.' :: dom))) (String.mk dom)
         = (String.mk name, String.mk []))
    ∧ (∀ (fqdn domain : String), '.' ∉ fqdn.data →
        serviceName fqdn domain = (fqdn, "")) := by
  refine ⟨fun name dc dom hname hdc hdom hne hhd huniq => ?_,
          fun name dom hname hdom huniq => ?_,
          fun fqdn domain hdot => ?_⟩
  · apply serviceName_of_unique name ('.' :: (dc ++ '.' :: dom)) dom dc ?_
      (tryTail_with_dc dc dom hdc hne hhd) huniq
    intro c hc
    rcases List.mem_append.mp hc with h1 | h2
    · exact hname c h1
    rcases List.mem_append.mp h2 with h3 | h4
    · exact dotService_nonspace c h3
    rcases List.mem_cons.mp h4 with rfl | h5
    · rfl
    rcases List.mem_append.mp h5 with h6 | h7
    · exact hdc c h6
    rcases List.mem_cons.mp h7 with rfl | h8
    · rfl
    · exact hdom c h8
  · apply serviceName_of_unique name ('.' :: dom) dom [] ?_
      (tryTail_no_dc dom) huniq
    intro c hc
    rcases List.mem_append.mp hc with h1 | h2
    · exact hname c h1
    rcases List.mem_append.mp h2 with h3 | h4
    · exact dotService_nonspace c h3
    rcases List.mem_cons.mp h4 with rfl | h5
    · rfl
    · exact hdom c h5
  · unfold serviceName
    rw [searchName_none fqdn.data domain.data (nonSpaceRun fqdn.data) ?_]
    intro k _
    by_cases hl : litAt fqdn.data k dotService = true
    · exact absurd (litAt_dot_mem hl) hdot
    · unfold tryAt
      rw [Bool.not_eq_true] at hl
      rw [hl]
      rfl

/-- C7 witness: the canonical fully qualified forms and a bare token,
via the amended statement at concrete inputs. -/
theorem c7_witness :
    serviceName "foo.service.dc1.sd" "sd" = ("foo", "dc1")
    ∧ serviceName "foo.service.sd" "sd" = ("foo", "")
    ∧ serviceName "foo" "sd" = ("foo", "") := by
  refine ⟨?_, ?_, ?_⟩
  · exact c7_service_name_parsing.1 "foo".data "dc1".data "sd".data
      (by decide) (by decide) (by decide) (by decide) (by decide) (by decide)
  · exact c7_service_name_parsing.2.1 "foo".data "sd".data
      (by decide) (by decide) (by decide)
  · exact c7_service_name_parsing.2.2 "foo" "sd" (by decide)

/-! ### Public resolution entry points -/

/-- `Services` from `dcy.go`: split the input into bare name and implied
datacenter with `serviceName` against the configured `domain`, then
resolve with `srv`. -/
def Services (domain : String) (st : DcyState) (oracle : ConsulResult)
    (name : String) : QueryEffect × Bool :=
  let p := serviceName name domain
  srv st oracle p.1 p.2

/-- Result of `Service`: the picked address, the propagated error, or the
panic `rand.Intn` raises when its argument is not positive. -/
inductive ServiceResult where
  | ok (a : Address)
  | err (e : String)
  | panicked
  deriving DecidableEq, Repr

/-- `Service` from `dcy.go`: resolve with `Services` and pick one address
at random. `rand.Intn n` returns a uniform draw in `[0, n)` and panics
when `n ≤ 0`; it is modelled as `r % n` for an arbitrary draw `r`, with
the panic on an empty list made explicit. -/
def Service (domain : String) (st : DcyState) (oracle : ConsulResult)
    (name : String) (r : Nat) : ServiceResult :=
  match (Services domain st oracle name).1.result with
  | .error e => .err e
  | .ok srvs =>
    if h : 0 < srvs.length then .ok (srvs.get ⟨r % srvs.length, Nat.mod_lt r h⟩)
    else .panicked

lemma query_ok_nonempty (st : DcyState) (oracle : ConsulResult)
    (name dc : String) :
    ∀ srvs, (query st oracle name dc).result = .ok srvs → srvs ≠ [] := by
  intro srvs h
  unfold query at h
  split at h
  · simp at h
  · dsimp only at h
    split at h
    · simp at h
    · next hl =>
      simp only [Except.ok.injEq] at h
      subst h
      exact fun heq => hl (by rw [heq]; rfl)

lemma srv_ok_nonempty (st : DcyState) (oracle : ConsulResult)
    (name dc : String) :
    ∀ srvs, (srv st oracle name dc).1.result = .ok srvs → srvs ≠ [] := by
  intro srvs h
  unfold srv at h
  split at h
  · next s hc =>
    split at h
    · next hl =>
      simp only [Except.ok.injEq] at h
      subst h
      exact List.ne_nil_of_length_pos hl
    · exact query_ok_nonempty st oracle name dc srvs h
  · exact query_ok_nonempty st oracle name dc srvs h

/-- C10: whenever `Services` returns without error its result is
non-empty, so the random index of `Service` is in bounds: `Service`
never panics, and every address it returns is an element of the set
`Services` returned. -/
theorem c10_service_never_panics (domain : String) (st : DcyState)
    (oracle : ConsulResult) (name : String) (r : Nat) :
    (∀ srvs, (Services domain st oracle name).1.result = .ok srvs → srvs ≠ [])
    ∧ Service domain st oracle name r ≠ .panicked
    ∧ (∀ a, Service domain st oracle name r = .ok a →
        ∃ srvs, (Services domain st oracle name).1.result = .ok srvs ∧ a ∈ srvs) := by
  have hne : ∀ srvs, (Services domain st oracle name).1.result = .ok srvs → srvs ≠ [] := by
    intro srvs h
    unfold Services at h
    exact srv_ok_nonempty st oracle _ _ srvs h
  refine ⟨hne, ?_, ?_⟩
  · intro hpanic
    unfold Service at hpanic
    split at hpanic
    · simp at hpanic
    · next srvs hres =>
      split at hpanic
      · simp at hpanic
      · next hpos => exact hpos (List.length_pos.mpr (hne srvs hres))
  · intro a ha
    unfold Service at ha
    split at ha
    · simp at ha
    · next srvs hres =>
      split at ha
      · simp only [ServiceResult.ok.injEq] at ha
        exact ⟨srvs, hres, ha ▸ List.get_mem srvs _ _⟩
      · simp at ha

/-- C10 witness: a concrete cache-hit resolution with two addresses never
panics and returns a member of the returned set. -/
theorem c10_witness :
    (Service "sd"
        { cache := fun k => if k = "test1" then some [⟨"a", 1⟩, ⟨"b", 2⟩] else none,
          subscribers := fun _ => none }
        (.err "unused") "test1" 3 ≠ .panicked)
    ∧ (∃ srvs,
        (Services "sd"
          { cache := fun k => if k = "test1" then some [⟨"a", 1⟩, ⟨"b", 2⟩] else none,
            subscribers := fun _ => none }
          (.err "unused") "test1").1.result = .ok srvs
        ∧ (⟨"b", 2⟩ : Address) ∈ srvs) := by
  have h := c10_service_never_panics "sd"
    { cache := fun k => if k = "test1" then some [⟨"a", 1⟩, ⟨"b", 2⟩] else none,
      subscribers := fun _ => none }
    (.err "unused") "test1" 3
  exact ⟨h.2.1, h.2.2 ⟨"b", 2⟩ rfl⟩

/-! ### URL substitution helper -/

/-- Go's `strings.Split(name, ".")` on the character list: splitting on
single dots, keeping empty fields ("" splits to [""], "a." to ["a",""]). -/
def splitOnDot : List Char → List (List Char)
  | [] => [[]]
  | c :: cs =>
    if c = '.' then [] :: splitOnDot cs
    else
      match splitOnDot cs with
      | [] => [[c]]
      | p :: ps => (c :: p) :: ps

/-- `shouldDiscoverHost` from `dcy.go`: a single-label host is discovered
unless it is `localhost`; a multi-label host is discovered iff its last
label is the configured registry domain. -/
def shouldDiscoverHost (domain name : String) : Bool :=
  let parts := (splitOnDot name.data).map String.mk
  if parts.length = 1 then
    if parts.headD "" = "localhost" then false else true
  else parts.getLastD "" == domain

/-- The decomposition `unpackURL` produces: scheme, host, port, path and
the parsed query values (`url.Values` is a map from key to value list).
`unpackURL` itself delegates to the external `net/url.Parse` and
`net.SplitHostPort`, so the decomposition of an input string is supplied
as an oracle to `URL`. -/
structure URLParts where
  scheme : String
  host : String
  port : String
  path : String
  query : List (String × List String)

/-- Lexicographic string order by code point — identical to the
byte-wise order Go's `sort.Strings` uses, since UTF-8 preserves code
point order. -/
def charListLe : List Char → List Char → Bool
  | [], _ => true
  | _ :: _, [] => false
  | a :: as, b :: bs =>
    if a.val < b.val then true
    else if b.val < a.val then false
    else charListLe as bs

/-- Insertion into a key-sorted parameter list. -/
def insertSorted (kv : String × List String) :
    List (String × List String) → List (String × List String)
  | [] => [kv]
  | kv2 :: rest =>
    if charListLe kv.1.data kv2.1.data then kv :: kv2 :: rest
    else kv2 :: insertSorted kv rest

/-- Sort the parameters by key, as `url.Values.Encode` does. -/
def sortByKey : List (String × List String) → List (String × List String)
  | [] => []
  | kv :: rest => insertSorted kv (sortByKey rest)

/-- `url.Values.Encode` of the Go standard library, as used by
`packURL`: parameters are emitted sorted by key, each as `key=value`,
joined with `&`. Modelled for keys and values made of unreserved
characters, on which Go's percent-escaping is the identity. -/
def encodeValues (q : List (String × List String)) : String :=
  String.intercalate "&"
    ((sortByKey q).flatMap fun kv => kv.2.map fun v => kv.1 ++ "=" ++ v)

/-- `packURL` from `dcy.go`: `scheme://` when the scheme is non-empty,
then the host, `:port` when the port is non-empty, the path, and `?`
followed by the encoded query when the query is non-empty. -/
def packURL (scheme host port path : String)
    (query : List (String × List String)) : String :=
  let u1 := if scheme != "" then scheme ++ "://" else ""
  let u2 := u1 ++ host
  let u3 := if port != "" then u2 ++ ":" ++ port else u2
  let u4 := u3 ++ path
  if query.length > 0 then u4 ++ "?" ++ encodeValues query else u4

/-- `URL` from `dcy.go`: unpack the input (the external parse is the
`unpack` oracle), return it unchanged when the host is not to be
discovered; resolve the host (`services` abstracts the `Services` call),
returning the input unchanged on an error or an empty set; otherwise
repack with a randomly chosen address (draw `r`, modelled as in
`Service`) in host position, an empty port, and the original scheme,
path and query. -/
def URL (domain : String) (unpack : String → URLParts)
    (services : String → Except String Addresses) (r : Nat)
    (url : String) : String :=
  let p := unpack url
  if !shouldDiscoverHost domain p.host then url
  else
    match services p.host with
    | .error _ => url
    | .ok srvs =>
      if h : srvs.length = 0 then url
      else
        packURL p.scheme
          (srvs.get ⟨r % srvs.length, Nat.mod_lt r (Nat.pos_of_ne_zero h)⟩).toString
          "" p.path p.query

/-- C9 counterexample: the query string is not left untouched. With the
host `svc` resolving to `10.0.0.1:80`, the input
`http://svc/path?b=2&a=1` (whose parse has query values
`b ↦ [2], a ↦ [1]`) is rewritten to `http://10.0.0.1:80/path?a=1&b=2`:
the query is re-encoded sorted by key, which differs from the claimed
output `http://10.0.0.1:80/path?b=2&a=1`. -/
theorem c9_counterexample :
    URL "sd"
        (fun _ => ⟨"http", "svc", "", "/path", [("b", ["2"]), ("a", ["1"])]⟩)
        (fun _ => .ok [⟨"10.0.0.1", 80⟩]) 0 "http://svc/path?b=2&a=1"
      = "http://10.0.0.1:80/path?a=1&b=2"
    ∧ "http://10.0.0.1:80/path?a=1&b=2" ≠ "http://10.0.0.1:80/path?b=2&a=1" := by
  exact ⟨rfl, by decide⟩

/-- C9 (amended): when the host is not to be discovered (bare
`localhost`, or a multi-label host whose last label is not the domain)
or resolution fails or yields an empty set, the original URL string is
returned unchanged; when resolution succeeds with a non-empty set, the
result is `packURL` of the original scheme, a discovered endpoint in
host position (with no separate port), the original path, and the
original query values re-encoded canonically (sorted by key) — so the
scheme and path are untouched while the query survives only up to
canonical re-encoding. -/
theorem c9_url_substitution (domain : String) (unpack : String → URLParts)
    (services : String → Except String Addresses) (r : Nat) (url : String) :
    (shouldDiscoverHost domain (unpack url).host = false →
       URL domain unpack services r url = url)
    ∧ (∀ e, services (unpack url).host = .error e →
       URL domain unpack services r url = url)
    ∧ (services (unpack url).host = .ok [] →
       URL domain unpack services r url = url)
    ∧ (∀ srvs, services (unpack url).host = .ok srvs → srvs ≠ [] →
       shouldDiscoverHost domain (unpack url).host = true →
       ∃ a ∈ srvs,
         URL domain unpack services r url
           = packURL (unpack url).scheme a.toString "" (unpack url).path
               (unpack url).query) := by
  refine ⟨fun hno => ?_, fun e he => ?_, fun hemp => ?_, fun srvs hok hne hyes => ?_⟩
  · simp [URL, hno]
  · by_cases hd : shouldDiscoverHost domain (unpack url).host
    · simp [URL, hd, he]
    · simp [URL, hd]
  · by_cases hd : shouldDiscoverHost domain (unpack url).host
    · simp [URL, hd, hemp]
    · simp [URL, hd]
  · have hl : ¬ srvs.length = 0 := fun h => hne (List.length_eq_zero.mp h)
    refine ⟨srvs.get ⟨r % srvs.length, Nat.mod_lt r (Nat.pos_of_ne_zero hl)⟩,
      List.get_mem srvs _ _, ?_⟩
    simp [URL, hyes, hok, hl]

/-- C9 witness: `http://localhost:9999/` is returned unchanged, and
`http://svc/path?x=1` with `svc` resolving to `10.0.0.1:80` becomes
`http://10.0.0.1:80/path?x=1`. -/
theorem c9_witness :
    URL "sd" (fun _ => ⟨"http", "localhost", "9999", "/", []⟩)
        (fun _ => .ok [⟨"10.0.0.1", 80⟩]) 0 "http://localhost:9999/"
      = "http://localhost:9999/"
    ∧ URL "sd" (fun _ => ⟨"http", "svc", "", "/path", [("x", ["1"])]⟩)
        (fun _ => .ok [⟨"10.0.0.1", 80⟩]) 0 "http://svc/path?x=1"
      = "http://10.0.0.1:80/path?x=1" := by
  constructor
  · exact (c9_url_substitution "sd" (fun _ => ⟨"http", "localhost", "9999", "/", []⟩)
      (fun _ => .ok [⟨"10.0.0.1", 80⟩]) 0 "http://localhost:9999/").1 (by decide)
  · obtain ⟨a, ha, heq⟩ := (c9_url_substitution "sd"
      (fun _ => ⟨"http", "svc", "", "/path", [("x", ["1"])]⟩)
      (fun _ => .ok [⟨"10.0.0.1", 80⟩]) 0 "http://svc/path?x=1").2.2.2
      [⟨"10.0.0.1", 80⟩] rfl (by decide) (by decide)
    rcases List.mem_singleton.mp ha with rfl
    rw [heq]
    rfl

end Dcy
